import Mathlib

/-!
Shallow embedding of the geometry/interaction core of the resario
repository: the coordinate mapper (`clampBox`, `scaleDetections` from
`src/lib`) and the interaction handlers of the drag-enabled
`DetectionsCanvas` component (`findBoxAtPosition`, `handleMouseMove`).
JavaScript numbers are modelled as rationals (ℚ); `Math.max`/`Math.min`
become `max`/`min` on ℚ.
-/

/-- `BBox` from `src/lib/types.ts`: four numeric edges. -/
@[ext]
structure BBox where
  xmin : ℚ
  ymin : ℚ
  xmax : ℚ
  ymax : ℚ
deriving DecidableEq

/-- `Detection` from `src/lib/types.ts`: score, label and box. -/
structure Detection where
  score : ℚ
  label : String
  box : BBox
deriving DecidableEq

/-- `clampBox(box, w, h)` from `src/lib` (boxes module): constrain each
edge into `[0,w]` / `[0,h]`, then reorder so min-edges are below
max-edges. -/
def clampBox (box : BBox) (w h : ℚ) : BBox :=
  let xmin := max 0 (min box.xmin w)
  let ymin := max 0 (min box.ymin h)
  let xmax := max 0 (min box.xmax w)
  let ymax := max 0 (min box.ymax h)
  { xmin := min xmin xmax
    ymin := min ymin ymax
    xmax := max xmin xmax
    ymax := max ymin ymax }

/-- `scaleDetections(dets, naturalW, naturalH, displayW, displayH)` from
`src/lib` (boxes module): clamp each detection box to the natural
dimensions, then multiply x-edges by `displayW/naturalW` and y-edges by
`displayH/naturalH`, keeping score and label. -/
def scaleDetections (dets : List Detection) (naturalW naturalH displayW displayH : ℚ) :
    List Detection :=
  let sx := displayW / naturalW
  let sy := displayH / naturalH
  dets.map fun d =>
    let b := clampBox d.box naturalW naturalH
    { d with
      box := { xmin := b.xmin * sx, ymin := b.ymin * sy
               xmax := b.xmax * sx, ymax := b.ymax * sy } }

/-- The inverse mapping used by `handleMouseMove` (DetectionsCanvas,
lines 190-201): multiply each display-space edge by the reciprocal
factors `naturalW/displayW` and `naturalH/displayH`. -/
def descaleBox (b : BBox) (naturalW naturalH displayW displayH : ℚ) : BBox :=
  let scaleX := naturalW / displayW
  let scaleY := naturalH / displayH
  { xmin := b.xmin * scaleX, ymin := b.ymin * scaleY
    xmax := b.xmax * scaleX, ymax := b.ymax * scaleY }

/-- The containment test of `findBoxAtPosition` (DetectionsCanvas, line
99): `x >= xmin && x <= xmax && y >= ymin && y <= ymax`. -/
def containsPoint (b : BBox) (x y : ℚ) : Bool :=
  decide (b.xmin ≤ x) && decide (x ≤ b.xmax) &&
    decide (b.ymin ≤ y) && decide (y ≤ b.ymax)

/-- The scaled, score-filtered list that both `findBoxAtPosition`
(line 88-94) and `draw` (line 260-266) compute:
`scaleDetections(localDetections, ...).filter((d) => d.score >= scoreThreshold)`. -/
def scaledFiltered (dets : List Detection) (naturalW naturalH displayW displayH t : ℚ) :
    List Detection :=
  (scaleDetections dets naturalW naturalH displayW displayH).filter
    fun d => decide (t ≤ d.score)

/-- The list the `draw` callback iterates over (DetectionsCanvas,
lines 260-266); textually the same expression as in
`findBoxAtPosition`. -/
def drawnDetections (dets : List Detection) (naturalW naturalH displayW displayH t : ℚ) :
    List Detection :=
  (scaleDetections dets naturalW naturalH displayW displayH).filter
    fun d => decide (t ≤ d.score)

/-- The descending loop of `findBoxAtPosition` (lines 96-103): check
indices `n-1, n-2, ..., 0` of the scaled filtered list and return the
first whose box contains the pointer, else `-1`. -/
def findLoop (scaled : List Detection) (x y : ℚ) : ℕ → Int
  | 0 => -1
  | n + 1 =>
    match scaled[n]? with
    | some d => if containsPoint d.box x y then (n : Int) else findLoop scaled x y n
    | none => findLoop scaled x y n

/-- `findBoxAtPosition(x, y)` from DetectionsCanvas (lines 86-114). -/
def findBoxAtPosition (dets : List Detection)
    (naturalW naturalH displayW displayH t x y : ℚ) : Int :=
  let scaled := scaledFiltered dets naturalW naturalH displayW displayH t
  findLoop scaled x y scaled.length

/-- The interaction state of DetectionsCanvas relevant to
`handleMouseMove`: `draggedBox` (index into the filtered list, or null),
`dragOffset` and the local mutable detection list. -/
structure CanvasState where
  draggedBox : Option ℕ
  dragOffset : ℚ × ℚ
  localDetections : List Detection
deriving DecidableEq

/-- The `newBox` computation of `handleMouseMove` (DetectionsCanvas,
lines 183-188): each edge clamped with `Math.max(0, Math.min(..., ...))`
against the display dimensions. -/
def dragClampBox (newX newY width height displayW displayH : ℚ) : BBox :=
  { xmin := max 0 (min newX (displayW - width))
    ymin := max 0 (min newY (displayH - height))
    xmax := max 0 (min (newX + width) displayW)
    ymax := max 0 (min (newY + height) displayH) }

/-- `handleMouseMove` from DetectionsCanvas (lines 152-221), as a pure
transition: given the configuration, the current state and the mouse
position, it returns the next state together with the argument passed to
`onDetectionUpdate` (`none` when the callback is not invoked). -/
def handleMouseMove (naturalW naturalH displayW displayH t : ℚ)
    (st : CanvasState) (mx my : ℚ) : CanvasState × Option (List Detection) :=
  match st.draggedBox with
  | none => (st, none)
  | some draggedBox =>
    let newX := mx - st.dragOffset.1
    let newY := my - st.dragOffset.2
    let filteredDetections := st.localDetections.filter fun det => decide (t ≤ det.score)
    match filteredDetections[draggedBox]? with
    | none => (st, none)
    | some draggedDetection =>
      match st.localDetections.findIdx? (fun d => d == draggedDetection) with
      | none => (st, none)
      | some originalIndex =>
        let scaled := (scaleDetections [draggedDetection]
          naturalW naturalH displayW displayH).getD 0 draggedDetection
        let width := scaled.box.xmax - scaled.box.xmin
        let height := scaled.box.ymax - scaled.box.ymin
        let newBox := dragClampBox newX newY width height displayW displayH
        let updatedDetections := st.localDetections.set originalIndex
          { st.localDetections.getD originalIndex draggedDetection with
            box := descaleBox newBox naturalW naturalH displayW displayH }
        ({ st with localDetections := updatedDetections }, some updatedDetections)

/-! ### Helper lemmas about the single-edge clip `max 0 (min x w)` -/

lemma clip_nonneg (x w : ℚ) : 0 ≤ max 0 (min x w) := le_max_left 0 _

lemma clip_le (x w : ℚ) (hw : 0 ≤ w) : max 0 (min x w) ≤ w :=
  max_le hw (min_le_right x w)

lemma clip_le_max (x w : ℚ) : max 0 (min x w) ≤ max 0 w :=
  max_le (le_max_left 0 w) ((min_le_right x w).trans (le_max_right 0 w))

lemma clip_fix (x w : ℚ) (h0 : 0 ≤ x) (hw : x ≤ max 0 w) : max 0 (min x w) = x := by
  rcases le_total 0 w with h | h
  · rw [max_eq_right h] at hw
    rw [min_eq_left hw, max_eq_right h0]
  · rw [max_eq_left h] at hw
    have hx : x = 0 := le_antisymm hw h0
    subst hx
    rw [min_eq_right h, max_eq_left h]

lemma clampBox_xmin_le_xmax (b : BBox) (w h : ℚ) :
    (clampBox b w h).xmin ≤ (clampBox b w h).xmax := by
  simp only [clampBox]
  exact min_le_max

lemma clampBox_ymin_le_ymax (b : BBox) (w h : ℚ) :
    (clampBox b w h).ymin ≤ (clampBox b w h).ymax := by
  simp only [clampBox]
  exact min_le_max

/-- C3: clampBox is idempotent: for every box B and all numbers w, h,
`clampBox (clampBox B w h) w h = clampBox B w h`. -/
theorem clampBox_idempotent (b : BBox) (w h : ℚ) :
    clampBox (clampBox b w h) w h = clampBox b w h := by
  simp only [clampBox, BBox.mk.injEq]
  set A := max 0 (min b.xmin w) with hA
  set X := max 0 (min b.xmax w) with hX
  set Y := max 0 (min b.ymin h) with hY
  set Z := max 0 (min b.ymax h) with hZ
  have hA0 : 0 ≤ A := clip_nonneg _ _
  have hX0 : 0 ≤ X := clip_nonneg _ _
  have hY0 : 0 ≤ Y := clip_nonneg _ _
  have hZ0 : 0 ≤ Z := clip_nonneg _ _
  have hAw : A ≤ max 0 w := clip_le_max _ _
  have hXw : X ≤ max 0 w := clip_le_max _ _
  have hYh : Y ≤ max 0 h := clip_le_max _ _
  have hZh : Z ≤ max 0 h := clip_le_max _ _
  have e1 : max 0 (min (min A X) w) = min A X :=
    clip_fix _ _ (le_min hA0 hX0) ((min_le_left A X).trans hAw)
  have e2 : max 0 (min (max A X) w) = max A X :=
    clip_fix _ _ (hA0.trans (le_max_left A X)) (max_le hAw hXw)
  have e3 : max 0 (min (min Y Z) h) = min Y Z :=
    clip_fix _ _ (le_min hY0 hZ0) ((min_le_left Y Z).trans hYh)
  have e4 : max 0 (min (max Y Z) h) = max Y Z :=
    clip_fix _ _ (hY0.trans (le_max_left Y Z)) (max_le hYh hZh)
  rw [e1, e2, e3, e4]
  exact ⟨min_eq_left min_le_max, min_eq_left min_le_max,
    max_eq_right min_le_max, max_eq_right min_le_max⟩

/-- C9: for every input box (inverted or out-of-range edges included)
and all w, h ≥ 0, clampBox returns a box whose x-edges lie in [0, w],
whose y-edges lie in [0, h], and with xmin ≤ xmax and ymin ≤ ymax. -/
theorem clampBox_wellFormed (b : BBox) (w h : ℚ) (hw : 0 ≤ w) (hh : 0 ≤ h) :
    0 ≤ (clampBox b w h).xmin ∧ (clampBox b w h).xmin ≤ w ∧
    0 ≤ (clampBox b w h).xmax ∧ (clampBox b w h).xmax ≤ w ∧
    0 ≤ (clampBox b w h).ymin ∧ (clampBox b w h).ymin ≤ h ∧
    0 ≤ (clampBox b w h).ymax ∧ (clampBox b w h).ymax ≤ h ∧
    (clampBox b w h).xmin ≤ (clampBox b w h).xmax ∧
    (clampBox b w h).ymin ≤ (clampBox b w h).ymax := by
  simp only [clampBox]
  refine ⟨le_min (clip_nonneg _ _) (clip_nonneg _ _),
    (min_le_left _ _).trans (clip_le _ _ hw),
    (clip_nonneg _ _).trans (le_max_left _ _),
    max_le (clip_le _ _ hw) (clip_le _ _ hw),
    le_min (clip_nonneg _ _) (clip_nonneg _ _),
    (min_le_left _ _).trans (clip_le _ _ hh),
    (clip_nonneg _ _).trans (le_max_left _ _),
    max_le (clip_le _ _ hh) (clip_le _ _ hh),
    min_le_max, min_le_max⟩

/-- Witness for C9 at a concrete malformed box (swapped and
out-of-range edges) and dimensions w = 4, h = 7. -/
theorem clampBox_wellFormed_witness :
    0 ≤ (clampBox ⟨5, -3, 2, 99⟩ 4 7).xmin ∧ (clampBox ⟨5, -3, 2, 99⟩ 4 7).xmin ≤ 4 ∧
    0 ≤ (clampBox ⟨5, -3, 2, 99⟩ 4 7).xmax ∧ (clampBox ⟨5, -3, 2, 99⟩ 4 7).xmax ≤ 4 ∧
    0 ≤ (clampBox ⟨5, -3, 2, 99⟩ 4 7).ymin ∧ (clampBox ⟨5, -3, 2, 99⟩ 4 7).ymin ≤ 7 ∧
    0 ≤ (clampBox ⟨5, -3, 2, 99⟩ 4 7).ymax ∧ (clampBox ⟨5, -3, 2, 99⟩ 4 7).ymax ≤ 7 ∧
    (clampBox ⟨5, -3, 2, 99⟩ 4 7).xmin ≤ (clampBox ⟨5, -3, 2, 99⟩ 4 7).xmax ∧
    (clampBox ⟨5, -3, 2, 99⟩ 4 7).ymin ≤ (clampBox ⟨5, -3, 2, 99⟩ 4 7).ymax :=
  clampBox_wellFormed ⟨5, -3, 2, 99⟩ 4 7 (by norm_num) (by norm_num)

/-- C2: for every box and positive dimensions, scaling to display space
and applying the inverse mapping with the reciprocal factors gives back
the clamp of the box to the natural dimensions, exactly over ℚ. -/
theorem scale_descale_roundtrip (dets : List Detection) (naturalW naturalH displayW displayH : ℚ)
    (h1 : 0 < naturalW) (h2 : 0 < naturalH) (h3 : 0 < displayW) (h4 : 0 < displayH) :
    (scaleDetections dets naturalW naturalH displayW displayH).map
        (fun d => descaleBox d.box naturalW naturalH displayW displayH)
      = dets.map (fun d => clampBox d.box naturalW naturalH) := by
  simp only [scaleDetections, List.map_map]
  refine List.map_congr_left fun d _ => ?_
  have ex : displayW / naturalW * (naturalW / displayW) = 1 := by
    field_simp
  have ey : displayH / naturalH * (naturalH / displayH) = 1 := by
    field_simp
  simp only [Function.comp, descaleBox]
  ext
  · show (clampBox d.box naturalW naturalH).xmin * (displayW / naturalW) * (naturalW / displayW) = _
    rw [mul_assoc, ex, mul_one]
  · show (clampBox d.box naturalW naturalH).ymin * (displayH / naturalH) * (naturalH / displayH) = _
    rw [mul_assoc, ey, mul_one]
  · show (clampBox d.box naturalW naturalH).xmax * (displayW / naturalW) * (naturalW / displayW) = _
    rw [mul_assoc, ex, mul_one]
  · show (clampBox d.box naturalW naturalH).ymax * (displayH / naturalH) * (naturalH / displayH) = _
    rw [mul_assoc, ey, mul_one]

/-- The detection of the spec scenario: score 0.9, label "cat", natural
box {100, 100, 300, 300}. -/
def catDet : Detection :=
  { score := 9 / 10, label := "cat"
    box := { xmin := 100, ymin := 100, xmax := 300, ymax := 300 } }

/-- Witness for C2 at a concrete detection list and the 1000×800 /
500×400 dimensions of the spec scenario. -/
theorem scale_descale_roundtrip_witness :
    (scaleDetections [catDet] 1000 800 500 400).map
        (fun d => descaleBox d.box 1000 800 500 400)
      = [catDet].map (fun d => clampBox d.box 1000 800) :=
  scale_descale_roundtrip [catDet] 1000 800 500 400
    (by norm_num) (by norm_num) (by norm_num) (by norm_num)

/-- C4: with positive natural dimensions, scaleDetections first clamps
each detection box to the natural dimensions and then multiplies the
x-edges by displayW/naturalW and the y-edges by displayH/naturalH; in
the 1000×800 → 500×400 scenario the box {100,100,300,300} becomes
{50,50,150,150}. -/
theorem scaleDetections_clamps_then_scales (dets : List Detection)
    (naturalW naturalH displayW displayH : ℚ)
    (hW : 0 < naturalW) (hH : 0 < naturalH) :
    (∀ (d0 : Detection) (i : ℕ), i < dets.length →
      ((scaleDetections dets naturalW naturalH displayW displayH).getD i d0).box =
        { xmin := (clampBox (dets.getD i d0).box naturalW naturalH).xmin * (displayW / naturalW)
          ymin := (clampBox (dets.getD i d0).box naturalW naturalH).ymin * (displayH / naturalH)
          xmax := (clampBox (dets.getD i d0).box naturalW naturalH).xmax * (displayW / naturalW)
          ymax := (clampBox (dets.getD i d0).box naturalW naturalH).ymax * (displayH / naturalH) }) ∧
    scaleDetections [catDet] 1000 800 500 400
      = [{ score := 9 / 10, label := "cat"
           box := { xmin := 50, ymin := 50, xmax := 150, ymax := 150 } }] := by
  constructor
  · intro d0 i hi
    have hlen : (scaleDetections dets naturalW naturalH displayW displayH).length
        = dets.length := by simp [scaleDetections]
    rw [List.getD_eq_getElem _ _ (by rw [hlen]; exact hi), List.getD_eq_getElem _ _ hi]
    simp [scaleDetections]
  · simp [scaleDetections, clampBox, catDet]
    norm_num

/-- Witness for C4: the pointwise clamp-then-scale formula evaluated at
the scenario detection at index 0. -/
theorem scaleDetections_clamps_then_scales_witness :
    ((scaleDetections [catDet] 1000 800 500 400).getD 0 catDet).box =
      { xmin := (clampBox ([catDet].getD 0 catDet).box 1000 800).xmin * (500 / 1000)
        ymin := (clampBox ([catDet].getD 0 catDet).box 1000 800).ymin * (400 / 800)
        xmax := (clampBox ([catDet].getD 0 catDet).box 1000 800).xmax * (500 / 1000)
        ymax := (clampBox ([catDet].getD 0 catDet).box 1000 800).ymax * (400 / 800) } :=
  (scaleDetections_clamps_then_scales [catDet] 1000 800 500 400
    (by norm_num) (by norm_num)).1 catDet 0 (by norm_num)

/-- C5: scaleDetections preserves the list length and, at every index,
the label and score of the input detection; only the box changes. -/
theorem scaleDetections_preserves_order (dets : List Detection)
    (naturalW naturalH displayW displayH : ℚ) :
    (scaleDetections dets naturalW naturalH displayW displayH).length = dets.length ∧
    ∀ (d0 : Detection) (i : ℕ), i < dets.length →
      ((scaleDetections dets naturalW naturalH displayW displayH).getD i d0).label
          = (dets.getD i d0).label ∧
      ((scaleDetections dets naturalW naturalH displayW displayH).getD i d0).score
          = (dets.getD i d0).score := by
  have hlen : (scaleDetections dets naturalW naturalH displayW displayH).length
      = dets.length := by simp [scaleDetections]
  refine ⟨hlen, fun d0 i hi => ?_⟩
  rw [List.getD_eq_getElem _ _ (by rw [hlen]; exact hi), List.getD_eq_getElem _ _ hi]
  simp [scaleDetections]

/-- Witness for C5 at the scenario detection, index 0. -/
theorem scaleDetections_preserves_order_witness :
    ((scaleDetections [catDet] 1000 800 500 400).getD 0 catDet).label
        = ([catDet].getD 0 catDet).label ∧
    ((scaleDetections [catDet] 1000 800 500 400).getD 0 catDet).score
        = ([catDet].getD 0 catDet).score :=
  (scaleDetections_preserves_order [catDet] 1000 800 500 400).2 catDet 0 (by norm_num)

/-- The descending loop of `findBoxAtPosition` returns the greatest
index below `n` whose box contains the point, or -1 when none does. -/
lemma findLoop_spec (scaled : List Detection) (x y : ℚ) (d0 : Detection) :
    ∀ n, n ≤ scaled.length →
      (findLoop scaled x y n = -1 ∧
        ∀ i, i < n → containsPoint (scaled.getD i d0).box x y = false) ∨
      (∃ i, i < n ∧ findLoop scaled x y n = (i : Int) ∧
        containsPoint (scaled.getD i d0).box x y = true ∧
        ∀ j, i < j → j < n → containsPoint (scaled.getD j d0).box x y = false) := by
  intro n
  induction n with
  | zero => exact fun _ => Or.inl ⟨rfl, fun i hi => absurd hi (Nat.not_lt_zero i)⟩
  | succ n ih =>
    intro hn1
    have hn : n < scaled.length := hn1
    have hsome : scaled[n]? = some (scaled.getD n d0) := by
      rw [List.getD_eq_getElem scaled d0 hn]
      exact List.getElem?_eq_getElem hn
    cases hcb : containsPoint (scaled.getD n d0).box x y with
    | true =>
      right
      refine ⟨n, Nat.lt_succ_self n, ?_, hcb, ?_⟩
      · simp only [findLoop, hsome, hcb, if_true]
      · intro j hj1 hj2; omega
    | false =>
      have hstep : findLoop scaled x y (n + 1) = findLoop scaled x y n := by
        simp only [findLoop, hsome, hcb, Bool.false_eq_true, if_false]
      rcases ih (Nat.le_of_succ_le hn1) with ⟨he, hall⟩ | ⟨i, hi, heq, hci, hall⟩
      · left
        refine ⟨hstep.trans he, fun i hi => ?_⟩
        rcases Nat.lt_succ_iff_lt_or_eq.mp hi with h | h
        · exact hall i h
        · subst h; exact hcb
      · right
        refine ⟨i, Nat.lt_succ_of_lt hi, hstep.trans heq, hci, fun j hj1 hj2 => ?_⟩
        rcases Nat.lt_succ_iff_lt_or_eq.mp hj2 with h | h
        · exact hall j hj1 h
        · subst h; exact hcb

/-- C7: hit-testing the scaled, score-filtered detections either selects
no box (-1) when none of them contains the point, or returns the highest
index among the filtered boxes that contain the point (the visually
topmost one). -/
theorem findBoxAtPosition_topmost (dets : List Detection)
    (naturalW naturalH displayW displayH t x y : ℚ) (d0 : Detection) :
    (findBoxAtPosition dets naturalW naturalH displayW displayH t x y = -1 ∧
      ∀ i, i < (scaledFiltered dets naturalW naturalH displayW displayH t).length →
        containsPoint
          ((scaledFiltered dets naturalW naturalH displayW displayH t).getD i d0).box x y
          = false) ∨
    (∃ i, i < (scaledFiltered dets naturalW naturalH displayW displayH t).length ∧
      findBoxAtPosition dets naturalW naturalH displayW displayH t x y = (i : Int) ∧
      containsPoint
        ((scaledFiltered dets naturalW naturalH displayW displayH t).getD i d0).box x y
        = true ∧
      ∀ j, i < j → j < (scaledFiltered dets naturalW naturalH displayW displayH t).length →
        containsPoint
          ((scaledFiltered dets naturalW naturalH displayW displayH t).getD j d0).box x y
          = false) :=
  findLoop_spec (scaledFiltered dets naturalW naturalH displayW displayH t) x y d0 _ le_rfl

/-- The low-score detection of the threshold scenario (score 0.2). -/
def lowDet : Detection :=
  { score := 1 / 5, label := "low", box := { xmin := 10, ymin := 10, xmax := 20, ymax := 20 } }

/-- The high-score detection of the threshold scenario (score 0.8). -/
def highDet : Detection :=
  { score := 4 / 5, label := "high", box := { xmin := 30, ymin := 30, xmax := 40, ymax := 40 } }

/-- C8: rendering and hit-testing use the same score-filtered list; a
scaled detection is kept iff its score is ≥ the threshold (so a score
strictly below is neither drawn nor hit-testable); with scores 0.2 and
0.8 and threshold 0.5 only the 0.8 detection is kept. -/
theorem scoreThreshold_uniform (dets : List Detection)
    (naturalW naturalH displayW displayH t : ℚ) :
    drawnDetections dets naturalW naturalH displayW displayH t
        = scaledFiltered dets naturalW naturalH displayW displayH t ∧
    (∀ d, d ∈ scaleDetections dets naturalW naturalH displayW displayH →
      (d ∈ scaledFiltered dets naturalW naturalH displayW displayH t ↔ t ≤ d.score)) ∧
    scaledFiltered [lowDet, highDet] 100 100 100 100 (1 / 2) = [highDet] := by
  refine ⟨rfl, fun d hd => ?_, ?_⟩
  · simp [scaledFiltered, List.mem_filter, hd]
  · simp [scaledFiltered, scaleDetections, clampBox, lowDet, highDet]
    norm_num

/-- Witness for C8: the 0.8 detection, which is its own scaled image at
100×100 natural = display, is kept iff 1/2 ≤ 0.8. -/
theorem scoreThreshold_uniform_witness :
    highDet ∈ scaledFiltered [lowDet, highDet] 100 100 100 100 (1 / 2) ↔
      (1 / 2 : ℚ) ≤ highDet.score :=
  (scoreThreshold_uniform [lowDet, highDet] 100 100 100 100 (1 / 2)).2.1 highDet
    (by simp [scaleDetections, clampBox, lowDet, highDet]; norm_num)

/-- C10: when no drag session is active (`draggedBox` is null),
`handleMouseMove` leaves the state unchanged and does not invoke
`onDetectionUpdate`. -/
theorem handleMouseMove_idle_noop (naturalW naturalH displayW displayH t : ℚ)
    (st : CanvasState) (mx my : ℚ) (h : st.draggedBox = none) :
    handleMouseMove naturalW naturalH displayW displayH t st mx my = (st, none) := by
  simp [handleMouseMove, h]

/-- Witness for C10 at a concrete idle state. -/
theorem handleMouseMove_idle_noop_witness :
    handleMouseMove 1000 800 500 400 (1 / 2)
        { draggedBox := none, dragOffset := (0, 0), localDetections := [catDet] } 37 42
      = ({ draggedBox := none, dragOffset := (0, 0), localDetections := [catDet] }, none) :=
  handleMouseMove_idle_noop 1000 800 500 400 (1 / 2)
    { draggedBox := none, dragOffset := (0, 0), localDetections := [catDet] } 37 42 rfl

/-- Every edge of the display-space box computed by the drag clamp lies
in [0, displayWidth] × [0, displayHeight] when the box size and the
display dimensions are nonnegative. -/
lemma dragClampBox_bounds (newX newY width height displayW displayH : ℚ)
    (hw : 0 ≤ width) (hh : 0 ≤ height) (hdW : 0 ≤ displayW) (hdH : 0 ≤ displayH) :
    0 ≤ (dragClampBox newX newY width height displayW displayH).xmin ∧
    (dragClampBox newX newY width height displayW displayH).xmin ≤ displayW ∧
    0 ≤ (dragClampBox newX newY width height displayW displayH).xmax ∧
    (dragClampBox newX newY width height displayW displayH).xmax ≤ displayW ∧
    0 ≤ (dragClampBox newX newY width height displayW displayH).ymin ∧
    (dragClampBox newX newY width height displayW displayH).ymin ≤ displayH ∧
    0 ≤ (dragClampBox newX newY width height displayW displayH).ymax ∧
    (dragClampBox newX newY width height displayW displayH).ymax ≤ displayH := by
  simp only [dragClampBox]
  refine ⟨le_max_left _ _, max_le hdW ((min_le_right _ _).trans (by linarith)),
    le_max_left _ _, max_le hdW (min_le_right _ _),
    le_max_left _ _, max_le hdH ((min_le_right _ _).trans (by linarith)),
    le_max_left _ _, max_le hdH (min_le_right _ _)⟩

/-- Multiplying a display-space edge in [0, dim] by the reciprocal
factor nat/dim keeps it in [0, nat]. -/
lemma descale_edge_bounds (e dim nat : ℚ) (hdim : 0 < dim) (hnat : 0 ≤ nat)
    (h0 : 0 ≤ e) (h1 : e ≤ dim) : 0 ≤ e * (nat / dim) ∧ e * (nat / dim) ≤ nat := by
  constructor
  · exact mul_nonneg h0 (div_nonneg hnat hdim.le)
  · have h2 : e * (nat / dim) ≤ dim * (nat / dim) :=
      mul_le_mul_of_nonneg_right h1 (div_nonneg hnat hdim.le)
    have h3 : dim * (nat / dim) = nat := by field_simp
    linarith

/-- C6: with positive dimensions, every detection list committed by a
pointer-move (`onDetectionUpdate` argument) changes at most the dragged
entry, and the committed box has all natural-space edges within
[0, naturalWidth] × [0, naturalHeight] — equivalently its display-space
edges lay within [0, displayWidth] × [0, displayHeight] before the
inverse mapping — for every pointer position, inside or outside the
canvas. -/
theorem handleMouseMove_inBounds (naturalW naturalH displayW displayH t : ℚ)
    (st : CanvasState) (mx my : ℚ)
    (hnW : 0 < naturalW) (hnH : 0 < naturalH) (hdW : 0 < displayW) (hdH : 0 < displayH) :
    ∀ st2 upd, handleMouseMove naturalW naturalH displayW displayH t st mx my = (st2, some upd) →
      ∀ d, d ∈ upd → d ∈ st.localDetections ∨
        (0 ≤ d.box.xmin ∧ d.box.xmin ≤ naturalW ∧ 0 ≤ d.box.xmax ∧ d.box.xmax ≤ naturalW ∧
         0 ≤ d.box.ymin ∧ d.box.ymin ≤ naturalH ∧ 0 ≤ d.box.ymax ∧ d.box.ymax ≤ naturalH) := by
  intro st2 upd hEq d hd
  rcases hdb : st.draggedBox with _ | i
  · simp [handleMouseMove, hdb] at hEq
  rcases hfi : (st.localDetections.filter fun det => decide (t ≤ det.score))[i]? with _ | dd
  · simp [handleMouseMove, hdb, hfi] at hEq
  rcases hoi : st.localDetections.findIdx? (fun d2 => d2 == dd) with _ | oi
  · simp [handleMouseMove, hdb, hfi, hoi] at hEq
  simp only [handleMouseMove, hdb, hfi, hoi, Prod.mk.injEq, Option.some.injEq] at hEq
  obtain ⟨-, hupd⟩ := hEq
  subst hupd
  rcases List.mem_or_eq_of_mem_set hd with hmem | heq2
  · exact Or.inl hmem
  right
  subst heq2
  have hsc : (scaleDetections [dd] naturalW naturalH displayW displayH).getD 0 dd
      = { dd with
          box :=
            { xmin := (clampBox dd.box naturalW naturalH).xmin * (displayW / naturalW)
              ymin := (clampBox dd.box naturalW naturalH).ymin * (displayH / naturalH)
              xmax := (clampBox dd.box naturalW naturalH).xmax * (displayW / naturalW)
              ymax := (clampBox dd.box naturalW naturalH).ymax * (displayH / naturalH) } } := by
    simp [scaleDetections]
  have hwidth : 0 ≤ ((scaleDetections [dd] naturalW naturalH displayW displayH).getD 0 dd).box.xmax
      - ((scaleDetections [dd] naturalW naturalH displayW displayH).getD 0 dd).box.xmin := by
    rw [hsc]
    have h1 := clampBox_xmin_le_xmax dd.box naturalW naturalH
    have hsx : 0 ≤ displayW / naturalW := div_nonneg hdW.le hnW.le
    simp only
    nlinarith
  have hheight : 0 ≤ ((scaleDetections [dd] naturalW naturalH displayW displayH).getD 0 dd).box.ymax
      - ((scaleDetections [dd] naturalW naturalH displayW displayH).getD 0 dd).box.ymin := by
    rw [hsc]
    have h1 := clampBox_ymin_le_ymax dd.box naturalW naturalH
    have hsy : 0 ≤ displayH / naturalH := div_nonneg hdH.le hnH.le
    simp only
    nlinarith
  obtain ⟨hx1, hx2, hx3, hx4, hy1, hy2, hy3, hy4⟩ :=
    dragClampBox_bounds (mx - st.dragOffset.1) (my - st.dragOffset.2)
      (((scaleDetections [dd] naturalW naturalH displayW displayH).getD 0 dd).box.xmax -
        ((scaleDetections [dd] naturalW naturalH displayW displayH).getD 0 dd).box.xmin)
      (((scaleDetections [dd] naturalW naturalH displayW displayH).getD 0 dd).box.ymax -
        ((scaleDetections [dd] naturalW naturalH displayW displayH).getD 0 dd).box.ymin)
      displayW displayH hwidth hheight hdW.le hdH.le
  simp only [descaleBox]
  exact ⟨(descale_edge_bounds _ displayW naturalW hdW hnW.le hx1 hx2).1,
    (descale_edge_bounds _ displayW naturalW hdW hnW.le hx1 hx2).2,
    (descale_edge_bounds _ displayW naturalW hdW hnW.le hx3 hx4).1,
    (descale_edge_bounds _ displayW naturalW hdW hnW.le hx3 hx4).2,
    (descale_edge_bounds _ displayH naturalH hdH hnH.le hy1 hy2).1,
    (descale_edge_bounds _ displayH naturalH hdH hnH.le hy1 hy2).2,
    (descale_edge_bounds _ displayH naturalH hdH hnH.le hy3 hy4).1,
    (descale_edge_bounds _ displayH naturalH hdH hnH.le hy3 hy4).2⟩

/-- The drag session of the spec scenario: the single cat detection is
being dragged with pointer offset (20, 20) inside the scaled box. -/
def dragState : CanvasState :=
  { draggedBox := some 0, dragOffset := (20, 20), localDetections := [catDet] }

/-- The detection actually committed by the code in the scenario drag:
natural-space box {0, 0, 160, 160}. -/
def draggedCat : Detection :=
  { score := 9 / 10, label := "cat"
    box := { xmin := 0, ymin := 0, xmax := 160, ymax := 160 } }

/-- C1 (code bug): dragging the scaled 100×100 cat box on a 500×400
display of a 1000×800 image so that its new top-left would be (-20,-20)
commits the natural-space box {0,0,160,160}, not the {0,0,200,200} the
spec scenario requires: `handleMouseMove` clamps `xmax`/`ymax` from the
unclamped `newX + width` / `newY + height`, so the box shrinks by 20
display pixels on each axis instead of keeping its 100×100 size. -/
theorem handleMouseMove_dragScenario :
    handleMouseMove 1000 800 500 400 (1 / 2) dragState 0 0
      = ({ dragState with localDetections := [draggedCat] }, some [draggedCat]) ∧
    draggedCat.box ≠ { xmin := 0, ymin := 0, xmax := 200, ymax := 200 } := by
  constructor
  · simp [handleMouseMove, dragState, catDet, draggedCat, scaleDetections, clampBox,
      dragClampBox, descaleBox, List.findIdx?]
    norm_num
  · simp [draggedCat]

/-- Witness for C6: in the scenario drag the committed detection has its
natural-space box inside [0, 1000] × [0, 800]. -/
theorem handleMouseMove_inBounds_witness :
    draggedCat ∈ dragState.localDetections ∨
      (0 ≤ draggedCat.box.xmin ∧ draggedCat.box.xmin ≤ 1000 ∧
       0 ≤ draggedCat.box.xmax ∧ draggedCat.box.xmax ≤ 1000 ∧
       0 ≤ draggedCat.box.ymin ∧ draggedCat.box.ymin ≤ 800 ∧
       0 ≤ draggedCat.box.ymax ∧ draggedCat.box.ymax ≤ 800) :=
  handleMouseMove_inBounds 1000 800 500 400 (1 / 2) dragState 0 0
    (by norm_num) (by norm_num) (by norm_num) (by norm_num)
    { dragState with localDetections := [draggedCat] } [draggedCat]
    (by
      simp [handleMouseMove, dragState, catDet, draggedCat, scaleDetections, clampBox,
        dragClampBox, descaleBox, List.findIdx?]
      norm_num)
    draggedCat (by simp)
